import Mathlib

/-!
Verification development for the debugInfo repository.

The repository drives a compiler sweep producing deduplicated binary
variants (src/binary_generator.py), parses DWARF line-table dumps into
per-file candidate line sets, verifies candidate lines by driving an LLDB
session (src/utils.py and src/get_line_nums.py), and classifies debug
values into issues.

The external capabilities (the LLDB debugger, the compiler, the
filesystem, llvm-dwarfdump, the debug-value extractor) are modelled as
explicit oracle parameters; the Python control flow operating on their
answers is transcribed directly.  Python dicts are modelled as total
functions or association lists, Python sets as duplicate-free lists with
guarded insertion, raised exceptions as the error case of Except.
-/

/-- Shared string constants (paths, markers and names used in concrete
instances below). -/
def emptyStr : String := ""

def srcA : String := "a.c"

def srcB : String := "b.c"

def slashChar : Char := '/'

def isStmtMarker : String := "is_stmt"

/-! ## Python set and sorting helpers

A Python set accumulated by repeated `add` calls is modelled as a
duplicate-free list with guarded insertion; `sorted(list(s))` is
`List.insertionSort (· ≤ ·)` on that list. -/

/-- s.add(x) on a Python set modelled as a duplicate-free list. -/
def setAdd (s : List Nat) (x : Nat) : List Nat :=
  if x ∈ s then s else s ++ [x]

/-! ## LLDB session model (src/utils.py LineNumberExtractor, src/get_line_nums.py LineNumberVerifier)

One verification session for a fixed (binary, source file) pair is
abstracted as the answers the LLDB capability gives to the calls the
code makes: target validity, per-line breakpoint validity, launch
validity, the finite sequence of stopped states of the process (each with
its stop reason, the top frame's current line and the breakpoint hit
counts observed at that stop), and whether the process handle is still
valid when the session ends. -/

/-- One stopped state of the debugged process, as observed by the
stop/continue loop in verify_line_nums. -/
structure StopEvent where
  isBpStop : Bool
  frameLine : Nat
  hitCount : Nat → Nat

/-- The answers of the LLDB capability for one (binary, source file)
verification session. -/
structure LldbSession where
  targetValid : Bool
  bpValid : Nat → Bool
  launchValid : Bool
  stops : List StopEvent
  processValidAtEnd : Bool

/-- The inner check of the stop/continue loop: the thread stopped at a
breakpoint and some registered breakpoint has a positive hit count and a
requested line equal to the current frame line (utils.py lines 277-285). -/
def stopMatch (bps : List Nat) (e : StopEvent) : Bool :=
  e.isBpStop && bps.any (fun l => decide (0 < e.hitCount l) && decide (l = e.frameLine))

/-- The while-loop of verify_line_nums over the process's stopped states,
accumulating the verified line set (utils.py lines 277-286). -/
def runStops (bps : List Nat) : List StopEvent → List Nat → List Nat
  | [], acc => acc
  | e :: rest, acc =>
      runStops bps rest (if stopMatch bps e then setAdd acc e.frameLine else acc)

/-- LineNumberExtractor.verify_line_nums (src/utils.py lines 260-288).
Inside the _lldb_session context manager an invalid target raises
RuntimeError, modelled as Except.error; a failed launch returns None;
otherwise the sorted verified line list is returned.  The breakpoint list
keeps exactly the candidate lines whose breakpoint creation succeeded. -/
def utils_verify_line_nums (s : LldbSession) (sourceFile : String)
    (lineNumbers : List Nat) : Except Unit (Option (List Nat)) :=
  if s.targetValid = false then Except.error ()
  else
    let breakpoints := lineNumbers.filter s.bpValid
    if s.launchValid = false then Except.ok none
    else Except.ok (some (List.insertionSort (· ≤ ·) (runStops breakpoints s.stops [])))

/-! ## Concrete sessions used in counterexamples and witnesses -/

/-- A session whose target creation fails. -/
def sessionA : LldbSession :=
  { targetValid := false, bpValid := fun _ => true, launchValid := true,
    stops := [], processValidAtEnd := false }

/-- A healthy session: valid target, one breakpoint stop at line 5 with a
positive hit count, process handle still valid at session end. -/
def sessionB : LldbSession :=
  { targetValid := true, bpValid := fun _ => true, launchValid := true,
    stops := [{ isBpStop := true, frameLine := 5, hitCount := fun _ => 1 }],
    processValidAtEnd := true }

/-! ## Variant sweep model (src/binary_generator.py Binary, BinaryAnalyzer.generate_variants)

The compiler is an oracle from (optimization level, debug level) to
either a failure (non-zero exit, nothing retained) or the content hash
of the produced artifact.  Binary.generate_binary writes the artifact to
a path derived from the source stem and the two levels; on success the
hash is computed immediately.  The sweep state carries the retained
binary list, the accumulated hash set and the artifact paths currently
present in the output directory. -/

/-- Fragments of the derived output file name
f-string in Binary.init, src/binary_generator.py line 51. -/
def optMark : String := "_O"

def dbgMark : String := "_D"

def outSuffix : String := ".out"

/-- Derived output file name of one (opt, dbg) compilation. -/
def binFileName (stem opt dbg : String) : String :=
  stem ++ optMark ++ opt ++ dbgMark ++ dbg ++ outSuffix

/-- One retained Binary: derived file name, the (opt, dbg) pair that
produced it and its content hash. -/
structure BinRec where
  fileName : String
  optLevel : String
  dbgLevel : String
  hashValue : Nat
deriving DecidableEq, Repr

/-- State of one generate_variants sweep: retained binaries, accumulated
content-hash set, and artifact paths on disk in the output directory. -/
structure SweepState where
  binaries : List BinRec
  fileHashes : List Nat
  disk : List String
deriving DecidableEq, Repr

/-- The empty sweep state at the start of generate_variants. -/
def emptySweep : SweepState := { binaries := [], fileHashes := [], disk := [] }

/-- One iteration of the generate_variants double loop
(src/binary_generator.py lines 115-123): compile; on failure skip; on
success the artifact is on disk and the hash computed; the binary is
appended and its hash added exactly when the hash is not already in the
accumulated set.  Note that a duplicate is only skipped: no deletion of
its artifact happens here. -/
def stepGV (compile : String → String → Option Nat) (stem : String)
    (st : SweepState) (opt dbg : String) : SweepState :=
  match compile opt dbg with
  | none => st
  | some h =>
      let st1 : SweepState := { st with disk := st.disk ++ [binFileName stem opt dbg] }
      if h ∈ st1.fileHashes then st1
      else { st1 with
              binaries := st1.binaries ++ [⟨binFileName stem opt dbg, opt, dbg, h⟩],
              fileHashes := st1.fileHashes ++ [h] }

/-- BinaryAnalyzer.generate_variants (src/binary_generator.py lines
115-123): the full sweep over opt_levels × dbg_levels. -/
def generate_variants (compile : String → String → Option Nat) (stem : String)
    (optLevels dbgLevels : List String) : SweepState :=
  optLevels.foldl
    (fun st opt => dbgLevels.foldl (fun st2 dbg => stepGV compile stem st2 opt dbg) st)
    emptySweep

/-- The dedup invariant carried by the sweep: retained hashes are
pairwise distinct and all recorded in the accumulated hash set. -/
def sweepInv (st : SweepState) : Prop :=
  (st.binaries.map BinRec.hashValue).Nodup ∧
    ∀ b ∈ st.binaries, b.hashValue ∈ st.fileHashes

/-- Concrete compiler oracle for counterexamples: every pair compiles
successfully and every artifact has the same content hash 42. -/
def cexCompile : String → String → Option Nat := fun _ _ => some 42

def optZero : String := "0"

def dbgOne : String := "1"

def dbgTwo : String := "2"

def stemS : String := "case"

/-- A sweep state that already retained the hash-42 artifact of
(O0, D1). -/
def dupSweep : SweepState :=
  { binaries := [⟨binFileName stemS optZero dbgOne, optZero, dbgOne, 42⟩],
    fileHashes := [42],
    disk := [binFileName stemS optZero dbgOne] }

/-! ## Issue detection model (src/binary_generator.py BinaryAnalyzer._find_issues_type1_2)

A DebugValue is consumed read-only from the external extraction
capability: a name, an error-message string (the empty string plays the
role of Python's falsy missing message), a pointer-ness flag and a
known-error flag.  The two recording rules of _find_issues_type1_2 are
evaluated independently for each value and each appends its own Issue
entry. -/

/-- External DebugValue, src/binary_generator.py lines 140-160:
error_message truthiness is non-emptiness; is_pointer() and
is_known_error() are the two predicate flags. -/
structure DebugValue where
  valName : String
  errorMessage : String
  pointerFlag : Bool
  knownErrorFlag : Bool
deriving DecidableEq, Repr

/-- One recorded Issue entry (the dict literal at lines 144-149 and
153-158). -/
structure Issue where
  binary : String
  sourceFile : String
  line : Nat
  errorMessage : String
deriving DecidableEq, Repr

/-- The separator of the composed issue message
f-string debug_value.name - debug_value.error_message. -/
def msgSep : String := " - "

/-- The Issue entry recorded for one debug value at one location. -/
def mkIssue (binaryName sourceFile : String) (line : Nat) (v : DebugValue) : Issue :=
  { binary := binaryName, sourceFile := sourceFile, line := line,
    errorMessage := v.valName ++ msgSep ++ v.errorMessage }

/-- The per-value body of _find_issues_type1_2 (src/binary_generator.py
lines 140-160): rule 1 records values with a non-empty error message not
recognised as a known error; rule 2 records pointer-typed values with
any non-empty error message.  Both rules are checked independently and
each appends its own entry. -/
def issuesForValue (binaryName sourceFile : String) (line : Nat) (v : DebugValue) :
    List Issue :=
  (if (v.errorMessage != emptyStr) && !v.knownErrorFlag then
    [mkIssue binaryName sourceFile line v] else []) ++
  (if v.pointerFlag && (v.errorMessage != emptyStr) then
    [mkIssue binaryName sourceFile line v] else [])

/-- BinaryAnalyzer._find_issues_type1_2 over a whole binary: iterate the
per-file verified line map, query the external debug-value capability at
each (file, line), and accumulate the per-value entries in order. -/
def find_issues_type1_2 (binaryName : String)
    (lineNumbers : List (String × List Nat))
    (getDebugValues : String → Nat → List DebugValue) : List Issue :=
  lineNumbers.foldl
    (fun acc p =>
      p.2.foldl
        (fun acc2 l =>
          (getDebugValues p.1 l).foldl
            (fun acc3 v => acc3 ++ issuesForValue binaryName p.1 l v) acc2)
        acc)
    []

/-- Concrete debug values for the witnesses. -/
def errWild : String := "wild read"

def valNameX : String := "x"

def binName : String := "case_O0_D1.out"

/-- Pointer-typed value with a known error message. -/
def vPtrKnown : DebugValue :=
  { valName := valNameX, errorMessage := errWild, pointerFlag := true, knownErrorFlag := true }

/-- Non-pointer value with the same known error message. -/
def vPlainKnown : DebugValue :=
  { valName := valNameX, errorMessage := errWild, pointerFlag := false, knownErrorFlag := true }

/-- Pointer-typed value with an unknown error message. -/
def vPtrUnknown : DebugValue :=
  { valName := valNameX, errorMessage := errWild, pointerFlag := true, knownErrorFlag := false }

/-! ## DWARF line-table fold (src/utils.py and src/get_line_nums.py get_line_numbers_by_file)

The parsed dump is a file table (an association from small integer file
indices to entries that may carry a name and a directory index) and an
ordered list of line-table rows.  The fold maps each row's file index
through the table to a base name, keeps only rows whose flag text
contains the is_stmt marker, and collects the lines per file name with
set semantics; the result is returned sorted per file.  The Python dict
of sets is modelled as a total function with default empty set. -/

/-- Substring test on character lists, modelling Python's
in operator on strings. -/
def charsContain (pat : List Char) : List Char → Bool
  | [] => pat.isEmpty
  | c :: rest => pat.isPrefixOf (c :: rest) || charsContain pat rest

/-- s2 in s1 for Python strings. -/
def strContainsSub (s1 s2 : String) : Bool :=
  charsContain s2.data s1.data

/-- The tail of a character list after its last slash, accumulating the
current path component in reverse. -/
def basenameList (cur : List Char) : List Char → List Char
  | [] => cur.reverse
  | c :: rest =>
      if c = slashChar then basenameList [] rest else basenameList (c :: cur) rest

/-- os.path.basename on POSIX paths: the component after the last slash. -/
def pyBasename (s : String) : String :=
  String.mk (basenameList [] s.data)

/-- One file-table entry: the optional recorded name and directory index
(a partially parsed entry may lack either key). -/
structure FileEntry where
  nameVal : Option String
  dirIndexVal : Option Nat
deriving DecidableEq, Repr

/-- file_table.get(i, \x7b\x7d).get('name', '') — the raw recorded name of a
file index, or the empty string when the index or the name is absent. -/
def lookupName (ft : List (Nat × FileEntry)) (i : Nat) : String :=
  match ft.find? (fun p => p.1 == i) with
  | some p => p.2.nameVal.getD emptyStr
  | none => emptyStr

/-- The base file name a row's file index resolves to (utils.py line
225). -/
def resolvedFileName (ft : List (Nat × FileEntry)) (i : Nat) : String :=
  pyBasename (lookupName ft i)

/-- One parsed row of the DWARF line-number program (utils.py lines
207-217). -/
structure LineTableRow where
  address : Nat
  line : Nat
  column : Nat
  fileIdx : Nat
  isaVal : Nat
  discriminator : Nat
  flags : String
deriving DecidableEq, Repr

/-- One iteration of the get_line_numbers_by_file fold (utils.py lines
224-229): resolve the row's file index to a base name; if the name is
non-empty and the flag text contains is_stmt, add the row's line to that
file's set. -/
def lnbfStep (ft : List (Nat × FileEntry)) (m : String → List Nat)
    (r : LineTableRow) : String → List Nat :=
  let fileName := resolvedFileName ft r.fileIdx
  if (fileName != emptyStr) && strContainsSub r.flags isStmtMarker then
    fun f => if f == fileName then setAdd (m fileName) r.line else m f
  else m

/-- The accumulated per-file candidate sets after folding all rows. -/
def lnbfMap (ft : List (Nat × FileEntry)) (rows : List LineTableRow) :
    String → List Nat :=
  rows.foldl (lnbfStep ft) (fun _ => [])

/-- get_line_numbers_by_file (src/utils.py lines 221-231,
src/get_line_nums.py lines 98-109): the per-file candidate line sets,
each returned sorted. -/
def get_line_numbers_by_file (ft : List (Nat × FileEntry))
    (rows : List LineTableRow) : String → List Nat :=
  fun f => List.insertionSort (· ≤ ·) (lnbfMap ft rows f)

/-- The synthetic file table of the C8 example: index 1 maps to a.c. -/
def exampleFileTable : List (Nat × FileEntry) :=
  [(1, { nameVal := some srcA, dirIndexVal := some 0 })]

/-- Two address rows at (file = 1, line = 10), both marked is_stmt. -/
def exampleRows : List LineTableRow :=
  [{ address := 0, line := 10, column := 1, fileIdx := 1, isaVal := 0,
     discriminator := 0, flags := isStmtMarker },
   { address := 16, line := 10, column := 1, fileIdx := 1, isaVal := 0,
     discriminator := 0, flags := isStmtMarker }]

/-! ## Analyzer cleanup model (src/binary_generator.py Binary.cleanup, BinaryAnalyzer.cleanup)

The output directory is modelled by its existence flag and the list of
file names it currently holds; each retained binary's artifact lives
there under its derived file name. -/

/-- One retained binary as seen by cleanup: its artifact file name and
its verified line-number map. -/
structure BinFile where
  fileName : String
  lineNumbers : List (String × List Nat)
deriving DecidableEq, Repr

/-- The analyzer state cleanup acts on: the retained binaries, the
output directory contents and its existence flag. -/
structure AnalyzerState where
  binaries : List BinFile
  dirContents : List String
  dirExists : Bool
deriving DecidableEq, Repr

/-- Binary.cleanup (src/binary_generator.py lines 88-92) as its effect
on the output directory contents: unlink the artifact if it exists. -/
def binary_cleanup (contents : List String) (b : BinFile) : List String :=
  if b.fileName ∈ contents then contents.filter (fun n => n != b.fileName)
  else contents

/-- BinaryAnalyzer.cleanup (src/binary_generator.py lines 219-225):
clean every retained binary, clear the list, then remove the output
directory exactly when it exists and is left empty. -/
def analyzer_cleanup (st : AnalyzerState) : AnalyzerState :=
  let contents := st.binaries.foldl binary_cleanup st.dirContents
  { binaries := [],
    dirContents := contents,
    dirExists := st.dirExists && !contents.isEmpty }

/-- An extra artifact in the output directory that no retained binary
references (e.g. a deduplicated duplicate left behind). -/
def strayFile : String := "case_O0_D2.out"

/-- A concrete analyzer state: one retained binary plus a stray file. -/
def exampleAnalyzer : AnalyzerState :=
  { binaries := [{ fileName := binName, lineNumbers := [] }],
    dirContents := [binName, strayFile],
    dirExists := true }

/-! ## Per-binary verification driver (src/utils.py LineNumberExtractor.get_line_nums lines 346-363)

get_line_nums iterates the per-file candidate map, verifies every file
that is a compile unit, and keeps only non-empty verified results.  The
whole body sits inside one try/except: when verify_line_nums raises (in
utils.py an invalid target raises RuntimeError out of _lldb_session),
the exception aborts the loop and get_line_nums returns the empty map
for the entire binary.  The per-file LLDB behaviour is an oracle from
file name to session. -/

/-- Prepend one verified entry to the rest of the sweep, unless the rest
already raised. -/
def okCons (fname : String) (v : List Nat) :
    Except Unit (List (String × List Nat)) → Except Unit (List (String × List Nat))
  | Except.error e => Except.error e
  | Except.ok r => Except.ok ((fname, v) :: r)

/-- How one verification outcome is folded into the loop of
get_line_nums: a raise aborts, None and an empty list are dropped, a
non-empty list is kept under its file name. -/
def go_entry_step (res : Except Unit (Option (List Nat))) (fname : String)
    (restRes : Except Unit (List (String × List Nat))) :
    Except Unit (List (String × List Nat)) :=
  match res with
  | Except.error e => Except.error e
  | Except.ok none => restRes
  | Except.ok (some v) => if v = [] then restRes else okCons fname v restRes

/-- The iteration of get_line_nums over the candidate map, threading the
possibility of a raised exception. -/
def utils_get_line_nums_go (sessions : String → LldbSession) (files : List String) :
    List (String × List Nat) → Except Unit (List (String × List Nat))
  | [] => Except.ok []
  | p :: rest =>
      if p.1 ∈ files then
        go_entry_step (utils_verify_line_nums (sessions p.1) p.1 p.2) p.1
          (utils_get_line_nums_go sessions files rest)
      else utils_get_line_nums_go sessions files rest

/-- LineNumberExtractor.get_line_nums (src/utils.py lines 346-363; the
same shape as src/get_line_nums.py lines 176-193): the verified line
map of one binary, empty when any exception escaped the loop. -/
def utils_get_line_nums (sessions : String → LldbSession) (files : List String)
    (lnbf : List (String × List Nat)) : List (String × List Nat) :=
  match utils_get_line_nums_go sessions files lnbf with
  | Except.ok r => r
  | Except.error _ => []

/-- The entry one verification outcome contributes when no exception
interrupts the sweep. -/
def perFileStep (res : Except Unit (Option (List Nat))) (fname : String) :
    Option (String × List Nat) :=
  match res with
  | Except.ok (some v) => if v = [] then none else some (fname, v)
  | _ => none

/-- The contribution of a single candidate entry to the verified map
when no exception interrupts the sweep: kept only if the file is a
compile unit and verification returns a non-empty line list. -/
def perFileResult (sessions : String → LldbSession) (files : List String)
    (p : String × List Nat) : Option (String × List Nat) :=
  if p.1 ∈ files then
    perFileStep (utils_verify_line_nums (sessions p.1) p.1 p.2) p.1
  else none

/-- The per-file session oracle of the C4 counterexample: file a.c gets
the invalid-target session, file b.c the healthy session. -/
def cexSessions : String → LldbSession :=
  fun f => if f == srcB then sessionB else sessionA

/-- A session oracle where every file gets the healthy session. -/
def goodSessions : String → LldbSession :=
  fun _ => sessionB

/-! ## Session resource release (src/utils.py _lldb_session lines 233-258, src/get_line_nums.py _cleanup lines 156-169)

The release steps the code can perform are reified as an action trace.
In utils.py the context manager's finally block guards the process
release on its own local variable, which is initialised to None and
never reassigned (the launched process is a local of verify_line_nums),
so the guard tests None on every exit.  In get_line_nums.py the finally
clause evaluates _cleanup(debugger, target, process); on any exit before
LaunchSimple ran, the name process is unbound and evaluating the
arguments raises NameError before any release step runs. -/

/-- The resource-release calls a session can perform. -/
inductive SessionAction where
  | killProcess
  | destroyProcess
  | deleteAllBreakpoints
  | deleteTarget
  | destroyDebugger
deriving DecidableEq, Repr

/-- The finally block of the _lldb_session context manager (utils.py
lines 248-258), parameterised by the manager's own process variable
(an Option of the handle's validity) and the target's validity. -/
def session_cleanup_actions (processVar : Option Bool) (targetValid : Bool) :
    List SessionAction :=
  (match processVar with
   | some true => [SessionAction.killProcess, SessionAction.destroyProcess]
   | _ => []) ++
  (if targetValid then [SessionAction.deleteAllBreakpoints, SessionAction.deleteTarget]
   else []) ++
  [SessionAction.destroyDebugger]

/-- The release trace of one _lldb_session run in utils.py: the
manager's process variable is None on every exit path (it is assigned
None at line 238 and never reassigned), so the process guard never
fires. -/
def utils_lldb_session_actions (s : LldbSession) : List SessionAction :=
  session_cleanup_actions none s.targetValid

/-- The possible exits of LineNumberVerifier.verify_line_nums
(src/get_line_nums.py lines 115-157). -/
inductive VerifyOutcome where
  | raised
  | returnedNone
  | returned (lines : List Nat)
deriving DecidableEq, Repr

/-- The body of LineNumberVerifier._cleanup once its arguments bind
(src/get_line_nums.py lines 159-169). -/
def verifier_cleanup_actions (processValid targetValid : Bool) : List SessionAction :=
  (if processValid then [SessionAction.killProcess, SessionAction.destroyProcess]
   else []) ++
  (if targetValid then [SessionAction.deleteAllBreakpoints, SessionAction.deleteTarget]
   else []) ++
  [SessionAction.destroyDebugger]

/-- LineNumberVerifier.verify_line_nums together with its release trace.
On an invalid target the method attempts to return None, but the finally
clause evaluates _cleanup(debugger, target, process) with process
unbound: the NameError replaces the return and no release step runs.
After a launch the process name is bound, so the finally clause performs
the _cleanup body (with an invalid process handle on a failed launch,
and with the end-of-session validity on normal completion). -/
def verifier_verify_line_nums (s : LldbSession) (sourceFile : String)
    (lineNumbers : List Nat) : VerifyOutcome × List SessionAction :=
  if s.targetValid = false then
    (VerifyOutcome.raised, [])
  else
    let breakpoints := lineNumbers.filter s.bpValid
    if s.launchValid = false then
      (VerifyOutcome.returnedNone, verifier_cleanup_actions false true)
    else
      (VerifyOutcome.returned
        (List.insertionSort (· ≤ ·) (runStops breakpoints s.stops [])),
       verifier_cleanup_actions s.processValidAtEnd true)

/-! ## Theorems -/

/-- When the stop-loop check fires, the hit frame line is one of the
registered breakpoint lines. -/
theorem stopMatch_line_mem (bps : List Nat) (e : StopEvent)
    (h : stopMatch bps e = true) : e.frameLine ∈ bps := by
  unfold stopMatch at h
  rcases Bool.and_eq_true_iff.mp h with ⟨_, hany⟩
  rcases List.any_eq_true.mp hany with ⟨l, hl, hcond⟩
  rcases Bool.and_eq_true_iff.mp hcond with ⟨_, heq⟩
  have : l = e.frameLine := of_decide_eq_true heq
  exact this ▸ hl

/-- Any element of the accumulated verified set comes from the initial
accumulator or from the registered breakpoint lines. -/
theorem runStops_mem (bps : List Nat) :
    ∀ (stops : List StopEvent) (acc : List Nat) (l : Nat),
      l ∈ runStops bps stops acc → l ∈ acc ∨ l ∈ bps
  | [], acc, l, hl => Or.inl hl
  | e :: rest, acc, l, hl => by
      have hrec := runStops_mem bps rest _ l hl
      rcases hrec with hacc | hbps
      · by_cases hm : stopMatch bps e = true
        · rw [hm] at hacc
          simp only [if_true] at hacc
          unfold setAdd at hacc
          by_cases hin : e.frameLine ∈ acc
          · rw [if_pos hin] at hacc
            exact Or.inl hacc
          · rw [if_neg hin] at hacc
            rcases List.mem_append.mp hacc with h1 | h2
            · exact Or.inl h1
            · have heq : l = e.frameLine := List.mem_singleton.mp h2
              subst heq
              have := stopMatch_line_mem bps e hm
              exact Or.inr this
        · rw [Bool.not_eq_true] at hm
          rw [hm] at hacc
          simp only [Bool.false_eq_true, if_false] at hacc
          exact Or.inl hacc
      · exact Or.inr hbps

/-- Guarded set insertion preserves freedom from duplicates. -/
theorem setAdd_nodup (s : List Nat) (x : Nat) (h : s.Nodup) : (setAdd s x).Nodup := by
  unfold setAdd
  by_cases hx : x ∈ s
  · rw [if_pos hx]; exact h
  · rw [if_neg hx]; simp [List.nodup_append, h, hx]

/-- The verified-set accumulator stays duplicate-free through the
stop/continue loop. -/
theorem runStops_nodup (bps : List Nat) :
    ∀ (stops : List StopEvent) (acc : List Nat), acc.Nodup → (runStops bps stops acc).Nodup
  | [], _, h => h
  | e :: rest, acc, h => by
      unfold runStops
      by_cases hm : stopMatch bps e = true
      · rw [hm]
        exact runStops_nodup bps rest _ (by simp only [if_true]; exact setAdd_nodup acc e.frameLine h)
      · rw [Bool.not_eq_true] at hm
        rw [hm]
        exact runStops_nodup bps rest _ (by simp only [Bool.false_eq_true, if_false]; exact h)

/-- C1: for every session (binary), source file and candidate line list,
whenever LineNumberExtractor.verify_line_nums returns a verified line
list, that list only contains candidate lines, is sorted ascending and
has no duplicates (it is a sorted set). -/
theorem verify_line_nums_subset_sorted
    (s : LldbSession) (sourceFile : String) (cands out : List Nat)
    (hres : utils_verify_line_nums s sourceFile cands = Except.ok (some out)) :
    (∀ l ∈ out, l ∈ cands) ∧ List.Sorted (· ≤ ·) out ∧ out.Nodup := by
  unfold utils_verify_line_nums at hres
  cases htv : s.targetValid with
  | false => rw [htv] at hres; simp at hres
  | true =>
      rw [htv] at hres
      simp only [Bool.true_eq_false, if_false] at hres
      cases hlv : s.launchValid with
      | false => rw [hlv] at hres; simp at hres
      | true =>
          rw [hlv] at hres
          simp only [Bool.true_eq_false, if_false, Except.ok.injEq, Option.some.injEq] at hres
          subst hres
          refine ⟨?_, List.sorted_insertionSort _ _, ?_⟩
          · intro l hl
            have hl2 : l ∈ runStops (cands.filter s.bpValid) s.stops [] :=
              (List.perm_insertionSort _ _).mem_iff.mp hl
            rcases runStops_mem _ _ _ _ hl2 with hacc | hbps
            · simp at hacc
            · exact (List.mem_filter.mp hbps).1
          · exact (List.perm_insertionSort _ _).nodup_iff.mpr
              (runStops_nodup _ _ _ List.nodup_nil)

/-- Witness for C1 at a concrete session: candidates {5, 9}, one observed
breakpoint stop at line 5, verified list [5]. -/
theorem verify_line_nums_subset_sorted_witness :
    utils_verify_line_nums sessionB srcA [5, 9] = Except.ok (some [5]) ∧
      ((∀ l ∈ [5], l ∈ [5, 9]) ∧ List.Sorted (· ≤ ·) [5] ∧ ([5] : List Nat).Nodup) :=
  ⟨rfl, verify_line_nums_subset_sorted sessionB srcA [5, 9] [5] rfl⟩

/-- A predicate preserved by every step of a fold is preserved by the
whole fold. -/
theorem foldl_preserves {α β : Type} (P : α → Prop) (f : α → β → α)
    (hf : ∀ a b, P a → P (f a b)) :
    ∀ (l : List β) (a : α), P a → P (l.foldl f a)
  | [], _, ha => ha
  | b :: l, a, ha => foldl_preserves P f hf l (f a b) (hf a b ha)

/-- One sweep iteration preserves the dedup invariant. -/
theorem stepGV_preserves (compile : String → String → Option Nat) (stem : String)
    (opt dbg : String) (st : SweepState) (h : sweepInv st) :
    sweepInv (stepGV compile stem st opt dbg) := by
  unfold stepGV
  cases hc : compile opt dbg with
  | none => exact h
  | some hv =>
      by_cases hmem : hv ∈ st.fileHashes
      · simp only [hmem, if_true]
        exact ⟨h.1, h.2⟩
      · simp only [hmem, if_false]
        constructor
        · rw [List.map_append]
          simp only [List.map_cons, List.map_nil]
          rw [List.nodup_append]
          refine ⟨h.1, List.nodup_singleton _, ?_⟩
          intro x hx hx2
          have hxv : x = hv := List.mem_singleton.mp hx2
          subst hxv
          rcases List.mem_map.mp hx with ⟨b, hb, hbh⟩
          exact hmem (hbh ▸ h.2 b hb)
        · intro b hb
          rcases List.mem_append.mp hb with hold | hnew
          · exact List.mem_append_left _ (h.2 b hold)
          · have : b = ⟨binFileName stem opt dbg, opt, dbg, hv⟩ := List.mem_singleton.mp hnew
            subst this
            exact List.mem_append_right _ (List.mem_singleton.mpr rfl)

/-- C2: the retained binary set produced by generate_variants has
pairwise distinct content hashes, and at each step a successfully
compiled binary is appended to the retained list exactly when its hash
is not already in the accumulated hash set (a failed compilation never
changes the retained list). -/
theorem generate_variants_dedup
    (compile : String → String → Option Nat) (stem : String)
    (optLevels dbgLevels : List String) :
    (((generate_variants compile stem optLevels dbgLevels).binaries.map
        BinRec.hashValue).Nodup) ∧
    (∀ (st : SweepState) (opt dbg : String) (h : Nat), compile opt dbg = some h →
      (((stepGV compile stem st opt dbg).binaries =
          st.binaries ++ [⟨binFileName stem opt dbg, opt, dbg, h⟩]) ↔
        h ∉ st.fileHashes)) ∧
    (∀ (st : SweepState) (opt dbg : String), compile opt dbg = none →
      (stepGV compile stem st opt dbg).binaries = st.binaries) := by
  refine ⟨?_, ?_, ?_⟩
  · have hinv : sweepInv (generate_variants compile stem optLevels dbgLevels) := by
      unfold generate_variants
      refine foldl_preserves sweepInv _ ?_ optLevels emptySweep ?_
      · intro st opt hst
        exact foldl_preserves sweepInv _
          (fun st2 dbg h2 => stepGV_preserves compile stem opt dbg st2 h2) dbgLevels st hst
      · exact ⟨List.nodup_nil, by intro b hb; simp [emptySweep] at hb⟩
    exact hinv.1
  · intro st opt dbg h hc
    unfold stepGV
    rw [hc]
    dsimp only
    by_cases hmem : h ∈ st.fileHashes
    · rw [if_pos hmem]
      constructor
      · intro heq
        exfalso
        have := congrArg List.length heq
        simp at this
      · intro hn; exact absurd hmem hn
    · rw [if_neg hmem]
      constructor
      · intro _; exact hmem
      · intro _; rfl
  · intro st opt dbg hc
    unfold stepGV
    rw [hc]

/-- Witness for C2 at a concrete step: the first compilation of the
constant-hash oracle is appended because hash 42 is not yet in the empty
accumulated set. -/
theorem generate_variants_dedup_witness :
    cexCompile optZero dbgOne = some 42 ∧
      (((stepGV cexCompile stemS emptySweep optZero dbgOne).binaries =
          emptySweep.binaries ++ [⟨binFileName stemS optZero dbgOne, optZero, dbgOne, 42⟩]) ↔
        (42 : Nat) ∉ emptySweep.fileHashes) :=
  ⟨rfl, (generate_variants_dedup cexCompile stemS [optZero] [dbgOne]).2.1
    emptySweep optZero dbgOne 42 rfl⟩

/-- C3 counterexample: with a compiler whose two (opt, dbg) pairs produce
content-identical artifacts, the duplicate second binary is skipped (the
retained list holds only the first), yet the duplicate's on-disk
artifact is still present in the output directory after the sweep — the
code never deletes it, contradicting the claim that the duplicate
artifact is deleted. -/
theorem generate_variants_duplicate_artifact_not_deleted :
    (generate_variants cexCompile stemS [optZero] [dbgOne, dbgTwo]).binaries =
        [⟨binFileName stemS optZero dbgOne, optZero, dbgOne, 42⟩] ∧
      binFileName stemS optZero dbgTwo ∈
        (generate_variants cexCompile stemS [optZero] [dbgOne, dbgTwo]).disk := by
  constructor
  · rfl
  · simp [generate_variants, stepGV, emptySweep, cexCompile, binFileName]

/-- C3 amended: when a compilation succeeds but its hash is already in
the retained set, the binary is skipped — the retained list and the hash
set are unchanged — but the on-disk artifact of the duplicate is NOT
deleted: it stays appended to the output directory contents. -/
theorem generate_variants_duplicate_skip_keeps_artifact
    (compile : String → String → Option Nat) (stem : String)
    (st : SweepState) (opt dbg : String) (h : Nat)
    (hc : compile opt dbg = some h) (hmem : h ∈ st.fileHashes) :
    (stepGV compile stem st opt dbg).binaries = st.binaries ∧
      (stepGV compile stem st opt dbg).fileHashes = st.fileHashes ∧
      (stepGV compile stem st opt dbg).disk = st.disk ++ [binFileName stem opt dbg] := by
  unfold stepGV
  rw [hc]
  dsimp only
  rw [if_pos hmem]
  exact ⟨rfl, rfl, rfl⟩

/-- Witness for the amended C3: the duplicate (O0, D2) compilation on the
already-retained hash 42 is skipped but its artifact remains. -/
theorem generate_variants_duplicate_skip_keeps_artifact_witness :
    cexCompile optZero dbgTwo = some 42 ∧ (42 : Nat) ∈ dupSweep.fileHashes ∧
      ((stepGV cexCompile stemS dupSweep optZero dbgTwo).binaries = dupSweep.binaries ∧
        (stepGV cexCompile stemS dupSweep optZero dbgTwo).fileHashes = dupSweep.fileHashes ∧
        (stepGV cexCompile stemS dupSweep optZero dbgTwo).disk =
          dupSweep.disk ++ [binFileName stemS optZero dbgTwo]) :=
  ⟨rfl, by decide,
    generate_variants_duplicate_skip_keeps_artifact cexCompile stemS dupSweep
      optZero dbgTwo 42 rfl (by decide)⟩

/-- C6: a pointer-typed debug value carrying any non-empty error message
is recorded as an Issue even when the error is a known class, while a
non-pointer value whose error message is a known error class is not
recorded at all. -/
theorem issue_rules_pointer_asymmetry
    (b f : String) (l : Nat) (v : DebugValue) :
    (v.pointerFlag = true → v.errorMessage ≠ emptyStr →
      issuesForValue b f l v ≠ []) ∧
    (v.pointerFlag = false → v.knownErrorFlag = true →
      issuesForValue b f l v = []) := by
  constructor
  · intro hp he
    have hbne : (v.errorMessage != emptyStr) = true := bne_iff_ne.mpr he
    unfold issuesForValue
    rw [hp, hbne]
    simp
  · intro hp hk
    unfold issuesForValue
    rw [hp, hk]
    simp

/-- Witness for C6: the pointer value with known error "wild read" is
recorded; the non-pointer value with the same known error is not. -/
theorem issue_rules_pointer_asymmetry_witness :
    issuesForValue binName srcA 3 vPtrKnown ≠ [] ∧
      issuesForValue binName srcA 3 vPlainKnown = [] :=
  ⟨(issue_rules_pointer_asymmetry binName srcA 3 vPtrKnown).1 rfl (by decide),
    (issue_rules_pointer_asymmetry binName srcA 3 vPlainKnown).2 rfl rfl⟩

/-- C7: both classification rules fire independently for a pointer-typed
value with a non-empty unknown error message, so the same Issue entry is
recorded twice for that (binary, file, line, value). -/
theorem issue_rules_double_record
    (b f : String) (l : Nat) (v : DebugValue)
    (hp : v.pointerFlag = true) (he : v.errorMessage ≠ emptyStr)
    (hk : v.knownErrorFlag = false) :
    issuesForValue b f l v = [mkIssue b f l v, mkIssue b f l v] := by
  have hbne : (v.errorMessage != emptyStr) = true := bne_iff_ne.mpr he
  unfold issuesForValue
  rw [hp, hbne, hk]
  simp

/-- Witness for C7: the pointer value with unknown error is recorded by
both rules, giving two identical entries. -/
theorem issue_rules_double_record_witness :
    issuesForValue binName srcA 3 vPtrUnknown =
      [mkIssue binName srcA 3 vPtrUnknown, mkIssue binName srcA 3 vPtrUnknown] :=
  issue_rules_double_record binName srcA 3 vPtrUnknown rfl (by decide) rfl

/-- Membership in a guarded set insertion. -/
theorem setAdd_mem (s : List Nat) (x y : Nat) :
    y ∈ setAdd s x ↔ y ∈ s ∨ y = x := by
  unfold setAdd
  by_cases hx : x ∈ s
  · rw [if_pos hx]
    constructor
    · exact Or.inl
    · rintro (h | h)
      · exact h
      · exact h ▸ hx
  · rw [if_neg hx]
    simp

/-- Membership after one fold step of get_line_numbers_by_file: for a
non-empty file name, a line is in the updated set for that file exactly
when it was already there or the row resolves to that file, is marked
is_stmt and carries that line. -/
theorem lnbfStep_mem (ft : List (Nat × FileEntry)) (m : String → List Nat)
    (r : LineTableRow) (f : String) (l : Nat) (hf : f ≠ emptyStr) :
    l ∈ lnbfStep ft m r f ↔
      l ∈ m f ∨ (resolvedFileName ft r.fileIdx = f ∧
        strContainsSub r.flags isStmtMarker = true ∧ r.line = l) := by
  unfold lnbfStep
  cases hg : (resolvedFileName ft r.fileIdx != emptyStr) && strContainsSub r.flags isStmtMarker with
  | false =>
      simp only [Bool.false_eq_true, if_false]
      constructor
      · exact Or.inl
      · rintro (h | ⟨h1, h2, h3⟩)
        · exact h
        · exfalso
          rcases Bool.and_eq_false_iff.mp hg with hb | hb
          · have : resolvedFileName ft r.fileIdx = emptyStr := by
              simpa using hb
            exact hf (h1.symm.trans this)
          · rw [h2] at hb
            simp at hb
  | true =>
      simp only [if_true]
      rcases Bool.and_eq_true_iff.mp hg with ⟨hb1, hb2⟩
      by_cases hff : f = resolvedFileName ft r.fileIdx
      · have hbeq : (f == resolvedFileName ft r.fileIdx) = true := beq_iff_eq.mpr hff
        rw [hbeq]
        simp only [if_true]
        rw [setAdd_mem]
        subst hff
        constructor
        · rintro (h | h)
          · exact Or.inl h
          · exact Or.inr ⟨rfl, hb2, h.symm⟩
        · rintro (h | ⟨h1, h2, h3⟩)
          · exact Or.inl h
          · exact Or.inr h3.symm
      · have hbeq : (f == resolvedFileName ft r.fileIdx) = false :=
          beq_eq_false_iff_ne.mpr hff
        rw [hbeq]
        simp only [Bool.false_eq_true, if_false]
        constructor
        · exact Or.inl
        · rintro (h | ⟨h1, h2, h3⟩)
          · exact h
          · exact absurd h1.symm hff
  
/-- Membership in the whole fold, relative to an arbitrary starting
accumulator map. -/
theorem lnbfFold_mem (ft : List (Nat × FileEntry)) :
    ∀ (rows : List LineTableRow) (m : String → List Nat) (f : String) (l : Nat),
      f ≠ emptyStr →
      (l ∈ rows.foldl (lnbfStep ft) m f ↔
        l ∈ m f ∨ ∃ r, r ∈ rows ∧ resolvedFileName ft r.fileIdx = f ∧
          strContainsSub r.flags isStmtMarker = true ∧ r.line = l)
  | [], m, f, l, hf => by simp
  | r0 :: rows, m, f, l, hf => by
      rw [List.foldl_cons, lnbfFold_mem ft rows _ f l hf, lnbfStep_mem ft m r0 f l hf]
      constructor
      · rintro ((h | hr0) | ⟨r, hr, hrest⟩)
        · exact Or.inl h
        · exact Or.inr ⟨r0, List.mem_cons_self r0 rows, hr0⟩
        · exact Or.inr ⟨r, List.mem_cons_of_mem r0 hr, hrest⟩
      · rintro (h | ⟨r, hr, hrest⟩)
        · exact Or.inl (Or.inl h)
        · rcases List.mem_cons.mp hr with heq | htail
          · exact Or.inl (Or.inr (heq ▸ hrest))
          · exact Or.inr ⟨r, htail, hrest⟩

/-- C8: in the fold from parsed rows to per-file candidate sets, a line
is a candidate for a non-empty file name exactly when some row resolves
to that name (so rows whose file index is absent resolve to the empty
name and are dropped), is flagged is_stmt, and carries that line —
duplicates collapse by set semantics.  In particular, for two is_stmt
rows at (file = 1, line = 10) and a table mapping 1 to a.c, the
candidate set of a.c is exactly [10]. -/
theorem line_numbers_by_file_fold :
    (∀ (ft : List (Nat × FileEntry)) (rows : List LineTableRow) (f : String) (l : Nat),
      f ≠ emptyStr →
      (l ∈ get_line_numbers_by_file ft rows f ↔
        ∃ r, r ∈ rows ∧ resolvedFileName ft r.fileIdx = f ∧
          strContainsSub r.flags isStmtMarker = true ∧ r.line = l)) ∧
    get_line_numbers_by_file exampleFileTable exampleRows srcA = [10] := by
  constructor
  · intro ft rows f l hf
    unfold get_line_numbers_by_file
    rw [(List.perm_insertionSort _ _).mem_iff]
    unfold lnbfMap
    rw [lnbfFold_mem ft rows _ f l hf]
    simp
  · decide

/-- Witness for C8: the characterization instantiated at the synthetic
dump of the example, for file a.c and line 10. -/
theorem line_numbers_by_file_fold_witness :
    10 ∈ get_line_numbers_by_file exampleFileTable exampleRows srcA ↔
      ∃ r, r ∈ exampleRows ∧ resolvedFileName exampleFileTable r.fileIdx = srcA ∧
        strContainsSub r.flags isStmtMarker = true ∧ r.line = 10 :=
  line_numbers_by_file_fold.1 exampleFileTable exampleRows srcA 10 (by decide)

/-- After one binary's cleanup its own artifact name is gone from the
directory contents. -/
theorem binary_cleanup_removes_own (contents : List String) (b : BinFile) :
    b.fileName ∉ binary_cleanup contents b := by
  unfold binary_cleanup
  by_cases hin : b.fileName ∈ contents
  · rw [if_pos hin]
    intro hmem
    have := (List.mem_filter.mp hmem).2
    simp at this
  · rw [if_neg hin]
    exact hin

/-- Cleaning a binary never adds files to the directory contents. -/
theorem binary_cleanup_no_new (contents : List String) (b : BinFile) (x : String)
    (hx : x ∉ contents) : x ∉ binary_cleanup contents b := by
  unfold binary_cleanup
  by_cases hin : b.fileName ∈ contents
  · rw [if_pos hin]
    intro hmem
    exact hx (List.mem_filter.mp hmem).1
  · rw [if_neg hin]
    exact hx

/-- Folding binary cleanups never adds files. -/
theorem fold_cleanup_no_new :
    ∀ (bs : List BinFile) (contents : List String) (x : String),
      x ∉ contents → x ∉ bs.foldl binary_cleanup contents
  | [], _, _, hx => hx
  | b :: bs, contents, x, hx =>
      fold_cleanup_no_new bs _ x (binary_cleanup_no_new contents b x hx)

/-- Every binary in the list has its artifact removed by the full fold. -/
theorem fold_cleanup_removes :
    ∀ (bs : List BinFile) (contents : List String) (b : BinFile),
      b ∈ bs → b.fileName ∉ bs.foldl binary_cleanup contents
  | [], _, b, hb => absurd hb (List.not_mem_nil b)
  | b0 :: bs, contents, b, hb => by
      rcases List.mem_cons.mp hb with heq | htail
      · subst heq
        exact fold_cleanup_no_new bs _ b.fileName (binary_cleanup_removes_own contents b)
      · exact fold_cleanup_removes bs _ b htail

/-- C9: after BinaryAnalyzer.cleanup, no artifact referenced by the
retained binary list remains in the output directory, and the output
directory is removed (its existence flag cleared) exactly when it
existed and its remaining contents are empty. -/
theorem analyzer_cleanup_removes_artifacts (st : AnalyzerState) :
    (∀ b ∈ st.binaries, b.fileName ∉ (analyzer_cleanup st).dirContents) ∧
    ((analyzer_cleanup st).dirExists =
      (st.dirExists && !(analyzer_cleanup st).dirContents.isEmpty)) ∧
    (st.dirExists = true →
      ((analyzer_cleanup st).dirExists = false ↔
        (analyzer_cleanup st).dirContents = [])) := by
  refine ⟨?_, rfl, ?_⟩
  · intro b hb
    exact fold_cleanup_removes st.binaries st.dirContents b hb
  · intro hex
    unfold analyzer_cleanup
    dsimp only
    rw [hex]
    rw [Bool.true_and]
    constructor
    · intro h
      have : (st.binaries.foldl binary_cleanup st.dirContents).isEmpty = true := by
        cases hE : (st.binaries.foldl binary_cleanup st.dirContents).isEmpty
        · rw [hE] at h; simp at h
        · rfl
      exact List.isEmpty_iff.mp this
    · intro h
      rw [h]
      rfl

/-- Witness for C9 at the concrete analyzer state: the retained
artifact is gone, the stray file keeps the directory non-empty, so the
directory is not removed. -/
theorem analyzer_cleanup_removes_artifacts_witness :
    binName ∉ (analyzer_cleanup exampleAnalyzer).dirContents ∧
      ((analyzer_cleanup exampleAnalyzer).dirExists = false ↔
        (analyzer_cleanup exampleAnalyzer).dirContents = []) :=
  ⟨(analyzer_cleanup_removes_artifacts exampleAnalyzer).1
      { fileName := binName, lineNumbers := [] } (by decide),
    (analyzer_cleanup_removes_artifacts exampleAnalyzer).2.2 rfl⟩

/-- On a valid target, verify_line_nums cannot raise: it returns None on
a failed launch and the sorted verified list otherwise. -/
theorem verify_shape (s : LldbSession) (f : String) (lns : List Nat)
    (h : s.targetValid = true) :
    utils_verify_line_nums s f lns =
      (if s.launchValid = false then Except.ok none
       else Except.ok (some (List.insertionSort (· ≤ ·)
         (runStops (lns.filter s.bpValid) s.stops [])))) := by
  unfold utils_verify_line_nums
  rw [h]
  simp only [Bool.true_eq_false, if_false]

/-- On an invalid target, verify_line_nums raises. -/
theorem verify_raises (s : LldbSession) (f : String) (lns : List Nat)
    (h : s.targetValid = false) :
    utils_verify_line_nums s f lns = Except.error () := by
  unfold utils_verify_line_nums
  rw [h, if_pos rfl]

/-- Reduction lemmas for the per-entry step of the get_line_nums loop. -/
theorem go_entry_step_error (e : Unit) (fname : String)
    (r : Except Unit (List (String × List Nat))) :
    go_entry_step (Except.error e) fname r = Except.error e := rfl

theorem go_entry_step_none (fname : String)
    (r : Except Unit (List (String × List Nat))) :
    go_entry_step (Except.ok none) fname r = r := rfl

theorem go_entry_step_some (v : List Nat) (fname : String)
    (r : Except Unit (List (String × List Nat))) :
    go_entry_step (Except.ok (some v)) fname r =
      (if v = [] then r else okCons fname v r) := rfl

theorem okCons_error (fname : String) (v : List Nat) (e : Unit) :
    okCons fname v (Except.error e) = Except.error e := rfl

theorem okCons_ok (fname : String) (v : List Nat) (r : List (String × List Nat)) :
    okCons fname v (Except.ok r) = Except.ok ((fname, v) :: r) := rfl

theorem perFileStep_none (fname : String) :
    perFileStep (Except.ok none) fname = none := rfl

theorem perFileStep_some (v : List Nat) (fname : String) :
    perFileStep (Except.ok (some v)) fname =
      (if v = [] then none else some (fname, v)) := rfl

/-- When some compile-unit entry of the candidate map has an invalid
target, the get_line_nums loop raises. -/
theorem go_error_of_invalid (sessions : String → LldbSession) (files : List String) :
    ∀ (lnbf : List (String × List Nat)),
      (∃ p ∈ lnbf, p.1 ∈ files ∧ (sessions p.1).targetValid = false) →
      utils_get_line_nums_go sessions files lnbf = Except.error () := by
  intro lnbf
  induction lnbf with
  | nil =>
      rintro ⟨p, hp, _⟩
      exact absurd hp (List.not_mem_nil p)
  | cons p0 rest ih =>
      rintro ⟨p, hp, hpf, hpt⟩
      simp only [utils_get_line_nums_go]
      rcases List.mem_cons.mp hp with heq | htail
      · subst heq
        rw [if_pos hpf, verify_raises _ _ _ hpt, go_entry_step_error]
      · have hrest := ih ⟨p, htail, hpf, hpt⟩
        by_cases h0 : p0.1 ∈ files
        · rw [if_pos h0]
          cases hv : utils_verify_line_nums (sessions p0.1) p0.1 p0.2 with
          | error e =>
              rw [go_entry_step_error]
          | ok o =>
              cases o with
              | none => rw [go_entry_step_none]; exact hrest
              | some w =>
                  rw [go_entry_step_some, hrest]
                  by_cases hw : w = []
                  · rw [if_pos hw]
                  · rw [if_neg hw, okCons_error]
        · rw [if_neg h0]; exact hrest

/-- When every compile-unit entry has a valid target, no exception
occurs and each entry contributes independently through perFileResult:
a failed launch or an empty verified list only drops its own file. -/
theorem go_ok_of_valid (sessions : String → LldbSession) (files : List String) :
    ∀ (lnbf : List (String × List Nat)),
      (∀ p ∈ lnbf, p.1 ∈ files → (sessions p.1).targetValid = true) →
      utils_get_line_nums_go sessions files lnbf =
        Except.ok (lnbf.filterMap (perFileResult sessions files)) := by
  intro lnbf
  induction lnbf with
  | nil => intro _; rfl
  | cons p0 rest ih =>
      intro hall
      have hrest := ih (fun p hp hf => hall p (List.mem_cons_of_mem p0 hp) hf)
      simp only [utils_get_line_nums_go, List.filterMap_cons]
      by_cases h0 : p0.1 ∈ files
      · have htv := hall p0 (List.mem_cons_self p0 rest) h0
        rw [if_pos h0]
        unfold perFileResult
        rw [if_pos h0]
        rw [verify_shape (sessions p0.1) p0.1 p0.2 htv]
        by_cases hl : (sessions p0.1).launchValid = false
        · rw [if_pos hl, go_entry_step_none, perFileStep_none, hrest]
          rfl
        · rw [if_neg hl, go_entry_step_some, perFileStep_some]
          by_cases hw : List.insertionSort (· ≤ ·)
              (runStops (p0.2.filter (sessions p0.1).bpValid) (sessions p0.1).stops []) = []
          · rw [if_pos hw, if_pos hw, hrest]
            rfl
          · rw [if_neg hw, if_neg hw, hrest, okCons_ok]
            rfl
      · rw [if_neg h0]
        unfold perFileResult
        rw [if_neg h0]
        rw [hrest]
        rfl

/-- Every entry of a successfully built verified map is a compile unit
with a non-empty verified list coming from its own candidate entry. -/
theorem go_mem (sessions : String → LldbSession) (files : List String) :
    ∀ (lnbf r : List (String × List Nat)),
      utils_get_line_nums_go sessions files lnbf = Except.ok r →
      ∀ f v, (f, v) ∈ r →
        v ≠ [] ∧ f ∈ files ∧ ∃ lns, (f, lns) ∈ lnbf ∧
          utils_verify_line_nums (sessions f) f lns = Except.ok (some v) := by
  intro lnbf
  induction lnbf with
  | nil =>
      intro r hr f v hm
      simp only [utils_get_line_nums_go, Except.ok.injEq] at hr
      subst hr
      simp at hm
  | cons p0 rest ih =>
      intro r hr f v hm
      simp only [utils_get_line_nums_go] at hr
      by_cases h0 : p0.1 ∈ files
      · rw [if_pos h0] at hr
        cases hv : utils_verify_line_nums (sessions p0.1) p0.1 p0.2 with
        | error e =>
            rw [hv, go_entry_step_error] at hr
            cases hr
        | ok o =>
            rw [hv] at hr
            cases o with
            | none =>
                rw [go_entry_step_none] at hr
                rcases ih r hr f v hm with ⟨h1, h2, lns, h3, h4⟩
                exact ⟨h1, h2, lns, List.mem_cons_of_mem _ h3, h4⟩
            | some w =>
                rw [go_entry_step_some] at hr
                by_cases hw : w = []
                · rw [if_pos hw] at hr
                  rcases ih r hr f v hm with ⟨h1, h2, lns, h3, h4⟩
                  exact ⟨h1, h2, lns, List.mem_cons_of_mem _ h3, h4⟩
                · rw [if_neg hw] at hr
                  cases hg : utils_get_line_nums_go sessions files rest with
                  | error e =>
                      rw [hg, okCons_error] at hr
                      cases hr
                  | ok r2 =>
                      rw [hg, okCons_ok] at hr
                      simp only [Except.ok.injEq] at hr
                      subst hr
                      rcases List.mem_cons.mp hm with heq | htail
                      · have hf : f = p0.1 := congrArg Prod.fst heq
                        have hv2 : v = w := congrArg Prod.snd heq
                        subst hf
                        subst hv2
                        exact ⟨hw, h0, p0.2, List.mem_cons_self _ _, hv⟩
                      · rcases ih r2 hg f v htail with ⟨h1, h2, lns, h3, h4⟩
                        exact ⟨h1, h2, lns, List.mem_cons_of_mem _ h3, h4⟩
      · rw [if_neg h0] at hr
        rcases ih r hr f v hm with ⟨h1, h2, lns, h3, h4⟩
        exact ⟨h1, h2, lns, List.mem_cons_of_mem _ h3, h4⟩

/-- In an association list with duplicate-free keys, a key determines
its value. -/
theorem keys_nodup_unique :
    ∀ (l : List (String × List Nat)), (l.map Prod.fst).Nodup →
      ∀ (f : String) (a b : List Nat), (f, a) ∈ l → (f, b) ∈ l → a = b := by
  intro l
  induction l with
  | nil => intro _ f a b ha; simp at ha
  | cons p rest ih =>
      intro hnd f a b ha hb
      rw [List.map_cons, List.nodup_cons] at hnd
      rcases List.mem_cons.mp ha with haeq | hatail
      · rcases List.mem_cons.mp hb with hbeq | hbtail
        · have h1 : a = p.2 := congrArg Prod.snd haeq
          have h2 : b = p.2 := congrArg Prod.snd hbeq
          rw [h1, h2]
        · exfalso
          have hf : f = p.1 := congrArg Prod.fst haeq
          have : f ∈ rest.map Prod.fst := List.mem_map_of_mem Prod.fst hbtail
          exact hnd.1 (hf ▸ this)
      · rcases List.mem_cons.mp hb with hbeq | hbtail
        · exfalso
          have hf : f = p.1 := congrArg Prod.fst hbeq
          have : f ∈ rest.map Prod.fst := List.mem_map_of_mem Prod.fst hatail
          exact hnd.1 (hf ▸ this)
        · exact ih hnd.2 f a b hatail hbtail

/-- C4 counterexample: the candidate map has files a.c (invalid target)
and b.c (healthy, verifying to [5]); verification of b.c alone succeeds
with a non-empty result, yet get_line_nums returns the empty map for the
whole binary — the failure on a.c aborts its sibling file b.c, so the
failure is not contained to the failing (binary, file) pair. -/
theorem invalid_target_aborts_sibling_files :
    utils_get_line_nums cexSessions [srcA, srcB] [(srcA, [3]), (srcB, [5])] = [] ∧
      utils_verify_line_nums (cexSessions srcB) srcB [5] = Except.ok (some [5]) ∧
      (cexSessions srcA).targetValid = false :=
  ⟨rfl, rfl, rfl⟩

/-- C4 amended: when every compile-unit file of the binary has a valid
debugger target, per-file failures are contained — a failed launch or an
empty verified set only drops its own file, and every other entry
contributes independently through perFileResult.  But when any
compile-unit file has an invalid target, the raised exception makes
get_line_nums return the empty map for the whole binary: sibling source
files of the same binary are aborted (sibling binaries are unaffected
because each binary's get_line_nums call catches its own exception). -/
theorem get_line_nums_failure_granularity
    (sessions : String → LldbSession) (files : List String)
    (lnbf : List (String × List Nat)) :
    ((∀ p ∈ lnbf, p.1 ∈ files → (sessions p.1).targetValid = true) →
      utils_get_line_nums sessions files lnbf =
        lnbf.filterMap (perFileResult sessions files)) ∧
    ((∃ p ∈ lnbf, p.1 ∈ files ∧ (sessions p.1).targetValid = false) →
      utils_get_line_nums sessions files lnbf = []) := by
  constructor
  · intro hall
    unfold utils_get_line_nums
    rw [go_ok_of_valid sessions files lnbf hall]
  · intro hex
    unfold utils_get_line_nums
    rw [go_error_of_invalid sessions files lnbf hex]

/-- Witness for the amended C4: with only the healthy file the map is
the independent per-file fold; with the invalid-target sibling present
the whole map is empty. -/
theorem get_line_nums_failure_granularity_witness :
    utils_get_line_nums goodSessions [srcB] [(srcB, [5])] =
        List.filterMap (perFileResult goodSessions [srcB]) [(srcB, [5])] ∧
      utils_get_line_nums cexSessions [srcA, srcB] [(srcA, [3]), (srcB, [5])] = [] :=
  ⟨(get_line_nums_failure_granularity goodSessions [srcB] [(srcB, [5])]).1 (by decide),
    (get_line_nums_failure_granularity cexSessions [srcA, srcB]
        [(srcA, [3]), (srcB, [5])]).2 ⟨(srcA, [3]), by decide, by decide, rfl⟩⟩

/-- C5: resource release is broken on real exit paths.  In utils.py the
context manager's own process variable is None on every exit (the
launched process is a local of verify_line_nums), so the release trace
of every session performs no process kill.  In get_line_nums.py, on an
invalid target the finally clause evaluates _cleanup with the unbound
name process: the NameError escapes (the outcome is a raise, not the
intended return None) and the release trace is empty — in particular
the debugger session object is never destroyed on that path. -/
theorem session_cleanup_never_kills_process :
    (∀ s : LldbSession,
      (utils_lldb_session_actions s).count SessionAction.killProcess = 0) ∧
    (verifier_verify_line_nums sessionA srcA [3]).2 = [] ∧
    (verifier_verify_line_nums sessionA srcA [3]).1 = VerifyOutcome.raised := by
  refine ⟨?_, rfl, rfl⟩
  intro s
  have h : ∀ b : Bool,
      (session_cleanup_actions none b).count SessionAction.killProcess = 0 := by
    decide
  exact h s.targetValid

/-- C10: every entry of the verified map returned by get_line_nums has a
non-empty line list and comes from a compile-unit candidate entry whose
verification returned exactly that non-empty list; and under
duplicate-free candidate keys, a compile-unit file whose verification
returns None or an empty list has no entry in the returned map — so an
empty verified set is indistinguishable from a verification failure at
this interface. -/
theorem get_line_nums_omits_empty
    (sessions : String → LldbSession) (files : List String)
    (lnbf : List (String × List Nat)) :
    (∀ p ∈ utils_get_line_nums sessions files lnbf,
      p.2 ≠ [] ∧ p.1 ∈ files ∧ ∃ lns, (p.1, lns) ∈ lnbf ∧
        utils_verify_line_nums (sessions p.1) p.1 lns = Except.ok (some p.2)) ∧
    ((lnbf.map Prod.fst).Nodup → ∀ (f : String) (lns : List Nat),
      (f, lns) ∈ lnbf → f ∈ files →
      (utils_verify_line_nums (sessions f) f lns = Except.ok none ∨
       utils_verify_line_nums (sessions f) f lns = Except.ok (some [])) →
      ∀ v, (f, v) ∉ utils_get_line_nums sessions files lnbf) := by
  have hmain : ∀ p ∈ utils_get_line_nums sessions files lnbf,
      p.2 ≠ [] ∧ p.1 ∈ files ∧ ∃ lns, (p.1, lns) ∈ lnbf ∧
        utils_verify_line_nums (sessions p.1) p.1 lns = Except.ok (some p.2) := by
    intro p hp
    unfold utils_get_line_nums at hp
    cases hg : utils_get_line_nums_go sessions files lnbf with
    | error e =>
        rw [hg] at hp
        simp at hp
    | ok r =>
        rw [hg] at hp
        exact go_mem sessions files lnbf r hg p.1 p.2 hp
  refine ⟨hmain, ?_⟩
  intro hnodup f lns hmem hf hver v hcontra
  rcases hmain (f, v) hcontra with ⟨hne, _, lns2, hmem2, hver2⟩
  have heqlns : lns2 = lns := keys_nodup_unique lnbf hnodup f lns2 lns hmem2 hmem
  subst heqlns
  rcases hver with h | h
  · rw [h] at hver2
    simp at hver2
  · rw [h] at hver2
    simp only [Except.ok.injEq, Option.some.injEq] at hver2
    exact hne hver2.symm

/-- Witness for C10: the healthy single-file binary yields the entry
(b.c, [5]), which is non-empty and produced by its own verification. -/
theorem get_line_nums_omits_empty_witness :
    (srcB, [5]) ∈ utils_get_line_nums goodSessions [srcB] [(srcB, [5])] ∧
      (([5] : List Nat) ≠ [] ∧ srcB ∈ [srcB] ∧ ∃ lns, (srcB, lns) ∈ [(srcB, [5])] ∧
        utils_verify_line_nums (goodSessions srcB) srcB lns =
          Except.ok (some [5])) :=
  ⟨by decide,
    (get_line_nums_omits_empty goodSessions [srcB] [(srcB, [5])]).1 (srcB, [5])
      (by decide)⟩
